import Mathlib

/-!
LuaEngine, a facade over an embedded Lua interpreter.

Shallow embedding of `src/LuaEngine/LuaEngine.cpp`.

* The code owned by the repository (`stringExplode`, `loadToStack`, `getTableKeys`,
  `loadFile`, the `isStateEnable` guard, ...) is transcribed statement by statement.
* The interpreter is an external library.  It is represented by a small state (a heap of
  tables, table 0 being the table of globals, and the evaluation stack) and by the
  documented behaviour of the C API calls the bridge makes.  Metatables, memory limits and
  the finite size of the C stack of the interpreter are outside the model.
* What cannot be computed from the bridge's code (the contents of files, whether a source
  compiles, what an arbitrary Lua function does, what `luaL_openlibs` installs, how numbers
  are printed) is a field of `World`.
* A `std::string` is a `String` and may contain the character 0.  Wherever the source hands
  `x.c_str()` to a consumer of `const char*`, or builds a `std::string` from a
  `const char*`, the model applies `c_str`, which stops at the first character 0.
-/

namespace LuaEngine

/-! ## Strings -/

/-- The character that terminates a C string. -/
def NUL : Char := Char.ofNat 0

/-- What a reader of `const char*` sees of a `std::string`: the characters before the first
character 0. -/
def c_str (s : String) : String :=
  String.mk (s.data.takeWhile (fun c => c != NUL))

/-- One call `std::getline(iss, token, delimiter)` on the unread characters of the stream.
`none`: nothing is left, the extraction fails and the loop of `stringExplode` ends.
Otherwise the token is everything before the first delimiter (or before the end of the
input) and the delimiter itself is consumed. -/
def getline (delimiter : Char) : List Char → Option (List Char × List Char)
  | [] => none
  | c :: cs =>
    some ((c :: cs).takeWhile (fun x => x != delimiter),
          ((c :: cs).dropWhile (fun x => x != delimiter)).drop 1)

/-- The `for (std::string token; std::getline(iss, token, delimiter); )` loop of
`stringExplode`, with `result.push_back(token)` as its body.  Every round consumes at
least one character, so `fuel` larger than the input length is never exhausted. -/
def explodeLoop (delimiter : Char) : Nat → List Char → List String → List String
  | 0, _, result => result
  | fuel + 1, iss, result =>
    match getline delimiter iss with
    | none => result
    | some (token, rest) => explodeLoop delimiter fuel rest (result ++ [String.mk token])

/-- `LuaEngine::stringExplode(string, delimiter)`. -/
def stringExplode (string : String) (delimiter : Char) : List String :=
  explodeLoop delimiter (string.length + 1) string.data []

/-- Fuel-free description of the tokens read by the `getline` loop. -/
def tokens (d : Char) : List Char → List (List Char)
  | [] => []
  | c :: cs =>
    if c = d then [] :: tokens d cs
    else match tokens d cs with
      | [] => [[c]]
      | t :: ts => (c :: t) :: ts

/-- Tokens written one after the other with the delimiter between neighbours. -/
def joinChars (d : Char) : List (List Char) → List Char
  | [] => []
  | [t] => t
  | t :: t2 :: ts => t ++ d :: joinChars d (t2 :: ts)

/-! ## Interpreter values and state -/

/-- Functions the interpreter can hold. -/
inductive LuaFunction
  /-- a C function installed by the standard libraries, by its global name -/
  | builtin (name : String)
  /-- the main function of a chunk compiled from this source text -/
  | chunk (source : String)
  /-- the function created by the definition in `luaGetKeysScript` -/
  | getKeys
  /-- the function created by the definition in `printTableScript` -/
  | print_table
  /-- any other function -/
  | closure (id : Nat)
  deriving DecidableEq

/-- Lua values.  Numbers are the finite ones; tables are references into the heap. -/
inductive LuaValue
  | nil
  | boolean (b : Bool)
  | number (x : ℚ)
  | string (s : String)
  | table (ref : Nat)
  | func (f : LuaFunction)
  deriving DecidableEq

/-- A table: its entries in the order in which the interpreter enumerates them. -/
abbrev LuaTable := List (LuaValue × LuaValue)

/-- The heap of tables.  Reference 0 is the table of globals. -/
abbrev Heap := Nat → LuaTable

/-- The interpreter state behind a non-null `lua_State*`. -/
structure LuaState where
  tables : Heap
  /-- the evaluation stack, top first -/
  stack : List LuaValue

/-- Raw read `t[k]`. -/
def rawget (t : LuaTable) (k : LuaValue) : LuaValue :=
  match t.find? (fun e => e.1 == k) with
  | some e => e.2
  | none => LuaValue.nil

/-- Raw write `t[k] = v`: storing nil removes the entry, an existing entry keeps its
place, a new one goes to the end. -/
def rawset (t : LuaTable) (k v : LuaValue) : LuaTable :=
  if v = LuaValue.nil then t.filter (fun e => e.1 != k)
  else if t.any (fun e => e.1 == k) then t.map (fun e => if e.1 = k then (k, v) else e)
  else t ++ [(k, v)]

/-- Heap after `table ref` got a new content. -/
def Heap.store (h : Heap) (ref : Nat) (t : LuaTable) : Heap :=
  fun r => if r = ref then t else h r

/-- Read of the global variable `name`. -/
def getGlobal (h : Heap) (name : String) : LuaValue :=
  rawget (h 0) (LuaValue.string name)

/-- Assignment to the global variable `name`. -/
def setGlobal (h : Heap) (name : String) (v : LuaValue) : Heap :=
  h.store 0 (rawset (h 0) (LuaValue.string name) v)

/-- Name of the type of a value, as `lua_typename` and error messages give it. -/
def typeName : LuaValue → String
  | LuaValue.nil => "nil"
  | LuaValue.boolean _ => "boolean"
  | LuaValue.number _ => "number"
  | LuaValue.string _ => "string"
  | LuaValue.table _ => "table"
  | LuaValue.func _ => "function"

/-- Outcome of calling a Lua function: the values it returns or the error value it raises,
and the heap it leaves. -/
inductive CallResult
  | returned (results : List LuaValue) (heap : Heap)
  | raised (err : LuaValue) (heap : Heap)

/-- Everything the bridge's code does not determine. -/
structure World where
  /-- the globals and tables `luaL_openlibs` installs in a state -/
  openlibs : LuaState → LuaState
  /-- content of the file of that name, `none` when it cannot be opened -/
  readFile : String → Option String
  /-- `some (line, message)` when the source text does not compile -/
  syntaxError : String → Option (Nat × String)
  /-- behaviour of the functions the model does not interpret itself -/
  call : LuaFunction → List LuaValue → Heap → CallResult
  /-- text the interpreter converts a number to -/
  numberToString : ℚ → String
  /-- text `std::cout` writes for a `lua_Number` -/
  coutNumber : ℚ → String

/-- Ways in which a call of the bridge does not return normally. -/
inductive Fault
  /-- an API function was entered with `L == nullptr` -/
  | nullState
  /-- an API function was given a stack index that is not acceptable -/
  | invalidIndex
  /-- an error was raised outside a protected call -/
  | panic (err : LuaValue)
  deriving DecidableEq

/-! ## The injected scripts -/

/-- The string `luaGetKeysScript` of `getTableKeys`. -/
def luaGetKeysScript : String :=
  "function getKeys(name) s = \"\" for k, v in pairs(_G[name]) do s = s..k..\",\" end return s end"

/-- The string `injectionCode` of `printGlobalTable`. -/
def printTableScript : String :=
  "function print_table (tbl, indent) if not indent then indent = 0 end for k, v in pairs(tbl) do formatting = string.rep(\"  \", indent) .. k .. \": \" if type(v) == \"table\" then print(formatting) print_table(v, indent+1) elseif type(v) == \x27boolean\x27 then print(formatting .. tostring(v)) else print(formatting .. v) end end end"

/-- Position prefix the interpreter puts in front of the message of an error raised in
`getKeys` (wording of Lua 5.1; the chunk is named after the start of its source). -/
def getKeysWhere : String :=
  "[string \"function getKeys(name) s = \"\" for k, v in pairs(_...\"]:1: "

/-- The text a value contributes to a concatenation: strings and numbers only. -/
def concatText (w : World) : LuaValue → Option String
  | LuaValue.string s => some s
  | LuaValue.number x => some (w.numberToString x)
  | _ => none

/-- The body `s = s..k..","` of the loop of `getKeys`, run for the keys in turn.
`s` is the global variable of that name. -/
def getKeysLoop (w : World) : List LuaValue → Heap → CallResult
  | [], h => CallResult.returned [getGlobal h "s"] h
  | k :: ks, h =>
    match concatText w k with
    | none =>
      CallResult.raised (LuaValue.string (getKeysWhere ++ "attempt to concatenate local \x27k\x27 (a "
        ++ typeName k ++ " value)")) h
    | some kt =>
      match concatText w (getGlobal h "s") with
      | none =>
        CallResult.raised (LuaValue.string (getKeysWhere ++ "attempt to concatenate global \x27s\x27 (a "
          ++ typeName (getGlobal h "s") ++ " value)")) h
      | some st => getKeysLoop w ks (setGlobal h "s" (LuaValue.string (st ++ (kt ++ ","))))

/-- A call `getKeys(name)` of the function defined by `luaGetKeysScript`:
`s = ""`, then `pairs(_G[name])` (the function `pairs` is read first, then `_G` is indexed,
then the call is made), then the loop, then `return s`.  When the global `pairs` holds a
function other than the library one, the run is left to `World.call`. -/
def getKeysBody (w : World) (name : LuaValue) (h : Heap) : CallResult :=
  let h1 := setGlobal h "s" (LuaValue.string "")
  let pairsFn := getGlobal h1 "pairs"
  match getGlobal h1 "_G" with
  | LuaValue.table g =>
    let arg := rawget (h1 g) name
    match pairsFn with
    | LuaValue.func (LuaFunction.builtin "pairs") =>
      match arg with
      | LuaValue.table r => getKeysLoop w ((h1 r).map Prod.fst) h1
      | _ =>
        CallResult.raised (LuaValue.string (getKeysWhere
          ++ "bad argument #1 to \x27pairs\x27 (table expected, got " ++ typeName arg ++ ")")) h1
    | LuaValue.func _ => w.call LuaFunction.getKeys [name] h
    | _ =>
      CallResult.raised (LuaValue.string (getKeysWhere ++ "attempt to call global \x27pairs\x27 (a "
        ++ typeName pairsFn ++ " value)")) h1
  | other =>
    CallResult.raised (LuaValue.string (getKeysWhere ++ "attempt to index global \x27_G\x27 (a "
      ++ typeName other ++ " value)")) h1

/-- Call of a function value.  The two injected chunks and `getKeys` are interpreted, the
rest is the world's. -/
def callFunction (w : World) (f : LuaFunction) (args : List LuaValue) (h : Heap) : CallResult :=
  match f with
  | LuaFunction.chunk source =>
    if source = luaGetKeysScript then
      CallResult.returned [] (setGlobal h "getKeys" (LuaValue.func LuaFunction.getKeys))
    else if source = printTableScript then
      CallResult.returned [] (setGlobal h "print_table" (LuaValue.func LuaFunction.print_table))
    else w.call f args h
  | LuaFunction.getKeys => getKeysBody w (args.headD LuaValue.nil) h
  | _ => w.call f args h

/-- Call of any value: only functions can be called. -/
def callValue (w : World) (v : LuaValue) (args : List LuaValue) (h : Heap) : CallResult :=
  match v with
  | LuaValue.func f => callFunction w f args h
  | other =>
    CallResult.raised (LuaValue.string ("attempt to call a " ++ typeName other ++ " value")) h

/-! ## The C API calls made by the bridge -/

/-- `lua_gettop`. -/
def lua_gettop (st : LuaState) : Nat := st.stack.length

/-- The value at an acceptable stack index: positive indices count from the bottom,
negative ones from the top; 0 is never acceptable. -/
def index2value (st : LuaState) (idx : Int) : Option LuaValue :=
  if 0 < idx then st.stack.reverse.get? (idx.toNat - 1)
  else if idx < 0 then st.stack.get? ((-idx).toNat - 1)
  else none

/-- `lua_isnil(L, idx)`.  A positive index above the top is acceptable and holds no value
(`LUA_TNONE`, which is not nil). -/
def lua_isnil (st : LuaState) (idx : Int) : Except Fault Bool :=
  if idx = 0 then Except.error Fault.invalidIndex
  else match index2value st idx with
    | some v => Except.ok (decide (v = LuaValue.nil))
    | none => if 0 < idx then Except.ok false else Except.error Fault.invalidIndex

/-- `lua_isstring(L, idx)`: true for strings and for numbers. -/
def lua_isstring (st : LuaState) (idx : Int) : Except Fault Bool :=
  if idx = 0 then Except.error Fault.invalidIndex
  else match index2value st idx with
    | some (LuaValue.string _) => Except.ok true
    | some (LuaValue.number _) => Except.ok true
    | some _ => Except.ok false
    | none => if 0 < idx then Except.ok false else Except.error Fault.invalidIndex

/-- `lua_tostring(L, -1)` as the bridge uses it, after `lua_isstring` said yes: the text
of the string or number on top, which a number is replaced by. -/
def lua_tostring_top (w : World) (st : LuaState) : Except Fault (String × LuaState) :=
  match st.stack with
  | LuaValue.string s :: _ => Except.ok (s, st)
  | LuaValue.number x :: below =>
    Except.ok (w.numberToString x,
      { st with stack := LuaValue.string (w.numberToString x) :: below })
  | _ => Except.error Fault.invalidIndex

/-- Push of a value (`lua_pushstring`, `lua_pushinteger`, `lua_pushnumber`,
`lua_pushboolean`). -/
def lua_push (st : LuaState) (v : LuaValue) : LuaState :=
  { st with stack := v :: st.stack }

/-- `lua_getglobal(L, name)`: pushes the value of the global. -/
def lua_getglobal (st : LuaState) (name : String) : LuaState :=
  lua_push st (getGlobal st.tables name)

/-- `lua_setglobal(L, name)`: pops a value and assigns it to the global. -/
def lua_setglobal (st : LuaState) (name : String) : Except Fault LuaState :=
  match st.stack with
  | v :: below => Except.ok { tables := setGlobal st.tables name v, stack := below }
  | [] => Except.error Fault.invalidIndex

/-- `lua_getfield(L, idx, k)`: pushes `t[k]` for the value `t` at the index.  Indexing a
value that is not a table raises an error. -/
def lua_getfield (st : LuaState) (idx : Int) (k : String) : Except Fault LuaState :=
  match index2value st idx with
  | some (LuaValue.table r) => Except.ok (lua_push st (rawget (st.tables r) (LuaValue.string k)))
  | some other =>
    Except.error (Fault.panic (LuaValue.string ("attempt to index a " ++ typeName other ++ " value")))
  | none => Except.error Fault.invalidIndex

/-- `lua_settable(L, -3)`: `t[k] = v` for the value on top, the key below it and the table
below the key; pops key and value. -/
def lua_settable3 (st : LuaState) : Except Fault LuaState :=
  match st.stack with
  | v :: k :: LuaValue.table r :: below =>
    if k = LuaValue.nil then Except.error (Fault.panic (LuaValue.string "table index is nil"))
    else Except.ok { tables := st.tables.store r (rawset (st.tables r) k v),
                     stack := LuaValue.table r :: below }
  | _ :: _ :: other :: _ =>
    Except.error (Fault.panic (LuaValue.string ("attempt to index a " ++ typeName other ++ " value")))
  | _ => Except.error Fault.invalidIndex

/-- `lua_pop(L, n)`. -/
def lua_pop (st : LuaState) (n : Nat) : Except Fault LuaState :=
  if n ≤ st.stack.length then Except.ok { st with stack := st.stack.drop n }
  else Except.error Fault.invalidIndex

/-- Status codes. -/
def LUA_OK : Int := 0

def LUA_ERRRUN : Int := 2

def LUA_ERRSYNTAX : Int := 3

def LUA_ERRFILE : Int := 6

/-- Results of a call adjusted to the number the caller asked for (`none`: all of them). -/
def adjustResults (rs : List LuaValue) : Option Nat → List LuaValue
  | none => rs
  | some n => (rs ++ List.replicate n LuaValue.nil).take n

/-- `lua_pcall(L, nargs, nresults, 0)`: the function and its arguments are popped; on
success the results are pushed, on failure the error value is. -/
def lua_pcall (w : World) (st : LuaState) (nargs : Nat) (nresults : Option Nat) :
    Except Fault (Int × LuaState) :=
  match st.stack.get? nargs with
  | none => Except.error Fault.invalidIndex
  | some f =>
    let args := (st.stack.take nargs).reverse
    let base := st.stack.drop (nargs + 1)
    match callValue w f args st.tables with
    | CallResult.returned rs h =>
      Except.ok (LUA_OK, { tables := h, stack := (adjustResults rs nresults).reverse ++ base })
    | CallResult.raised err h =>
      Except.ok (LUA_ERRRUN, { tables := h, stack := err :: base })

/-- `luaL_loadstring(L, s)`: pushes the compiled chunk, or the message of the syntax
error.  The two injected scripts compile. -/
def luaL_loadstring (w : World) (st : LuaState) (s : String) : Int × LuaState :=
  if s = luaGetKeysScript ∨ s = printTableScript then
    (LUA_OK, lua_push st (LuaValue.func (LuaFunction.chunk s)))
  else match w.syntaxError s with
    | none => (LUA_OK, lua_push st (LuaValue.func (LuaFunction.chunk s)))
    | some (line, msg) =>
      (LUA_ERRSYNTAX, lua_push st (LuaValue.string
        ("[string \"" ++ s ++ "\"]:" ++ toString line ++ ": " ++ msg)))

/-- `luaL_loadfile(L, filename)`: pushes the compiled chunk, or the message that says why
the file could not be opened or compiled. -/
def luaL_loadfile (w : World) (st : LuaState) (filename : String) : Int × LuaState :=
  match w.readFile filename with
  | none => (LUA_ERRFILE, lua_push st (LuaValue.string ("cannot open " ++ filename)))
  | some source =>
    match w.syntaxError source with
    | none => (LUA_OK, lua_push st (LuaValue.func (LuaFunction.chunk source)))
    | some (line, msg) =>
      (LUA_ERRSYNTAX, lua_push st (LuaValue.string
        (filename ++ ":" ++ toString line ++ ": " ++ msg)))

/-- The macro `luaL_dofile`: `luaL_loadfile(L, fn) || lua_pcall(L, 0, LUA_MULTRET, 0)`,
which is 1 when either step fails and 0 otherwise. -/
def luaL_dofile (w : World) (st : LuaState) (filename : String) : Except Fault (Int × LuaState) :=
  match luaL_loadfile w st filename with
  | (status, st1) =>
    if status ≠ 0 then Except.ok (1, st1)
    else match lua_pcall w st1 0 none with
      | Except.ok (status2, st2) => Except.ok (if status2 ≠ 0 then 1 else 0, st2)
      | Except.error f => Except.error f

/-- The macro `luaL_dostring`. -/
def luaL_dostring (w : World) (st : LuaState) (code : String) : Except Fault (Int × LuaState) :=
  match luaL_loadstring w st code with
  | (status, st1) =>
    if status ≠ 0 then Except.ok (1, st1)
    else match lua_pcall w st1 0 none with
      | Except.ok (status2, st2) => Except.ok (if status2 ≠ 0 then 1 else 0, st2)
      | Except.error f => Except.error f

/-- `luaL_newstate()`: no globals, empty stack. -/
def luaL_newstate : LuaState :=
  { tables := fun _ => [], stack := [] }

/-! ## The bridge -/

/-- The object `LuaEngine`: the handle `L` (`none` is `nullptr`), the members `_openLibs`,
`mError` and `currentLevel`, and the lines written to `std::cout`. -/
structure Engine where
  L : Option LuaState
  openLibs : Bool
  mError : String
  currentLevel : Nat
  cout : List String

/-- What a call of the bridge gives back: a fault, or the returned value and the object
afterwards. -/
abbrev Result (α : Type) := Except Fault (α × Engine)

/-- The returned value, if the call returned. -/
def Result.value {α : Type} : Result α → Option α
  | Except.ok (a, _) => some a
  | Except.error _ => none

/-- The object after the call, if the call returned. -/
def Result.engine {α : Type} : Result α → Option Engine
  | Except.ok (_, e) => some e
  | Except.error _ => none

/-- The constructor `LuaEngine::LuaEngine(openLibs)`. -/
def Engine.new (w : World) (openLibs : Bool) : Engine :=
  { L := some (if openLibs then w.openlibs luaL_newstate else luaL_newstate),
    openLibs := openLibs, mError := "", currentLevel := 0, cout := [] }

/-- `LuaEngine::isStateEnable(funcName)`. -/
def isStateEnable (e : Engine) (funcName : String) : Bool × Engine :=
  match e.L with
  | none =>
    (false, { e with cout := e.cout ++ ["[LuaEngine::" ++ funcName ++ "] Lua State not initialized"] })
  | some _ => (true, e)

/-- `LuaEngine::loadFile(fileName)`. -/
def loadFile (w : World) (e : Engine) (fileName : String) : Result Bool :=
  match isStateEnable e "loadFile" with
  | (false, e1) => Except.ok (false, e1)
  | (true, e1) =>
    match e1.L with
    | none => Except.error Fault.nullState
    | some st =>
      match luaL_dofile w st (c_str fileName) with
      | Except.error f => Except.error f
      | Except.ok (status, st1) =>
        if status = 1 then
          match lua_isstring st1 (-1) with
          | Except.error f => Except.error f
          | Except.ok true =>
            match lua_tostring_top w st1 with
            | Except.error f => Except.error f
            | Except.ok (msg, st2) =>
              Except.ok (false, { e1 with L := some st2, mError := c_str msg })
          | Except.ok false => Except.ok (false, { e1 with L := some st1 })
        else Except.ok (true, { e1 with L := some st1 })

/-- `LuaEngine::getError()`. -/
def getError (e : Engine) : String := e.mError

/-- `LuaEngine::executeCode(code)`. -/
def executeCode (w : World) (e : Engine) (code : String) : Result Unit :=
  match isStateEnable e "executeCode" with
  | (false, e1) => Except.ok ((), e1)
  | (true, e1) =>
    match e1.L with
    | none => Except.error Fault.nullState
    | some st =>
      match luaL_dostring w st (c_str code) with
      | Except.error f => Except.error f
      | Except.ok (_, st1) => Except.ok ((), { e1 with L := some st1 })

/-- `LuaEngine::clearState()`. -/
def clearState (w : World) (e : Engine) : Engine :=
  { e with L := some (if e.openLibs then w.openlibs luaL_newstate else luaL_newstate) }

/-- The value handed to one of the four overloads of `registerVariable`. -/
inductive HostValue
  | cstring (value : String)
  | int (value : Int)
  | float (value : ℚ)
  | bool (value : Bool)

/-- What the overload pushes: `lua_pushstring`, `lua_pushinteger`, `lua_pushnumber`,
`lua_pushboolean`. -/
def HostValue.toLua : HostValue → LuaValue
  | HostValue.cstring value => LuaValue.string (c_str value)
  | HostValue.int value => LuaValue.number value
  | HostValue.float value => LuaValue.number value
  | HostValue.bool value => LuaValue.boolean value

/-- `LuaEngine::registerVariable(variableName, value)`. -/
def registerVariable (e : Engine) (variableName : String) (value : HostValue) : Result Unit :=
  match isStateEnable e "registerVariable" with
  | (false, e1) => Except.ok ((), e1)
  | (true, e1) =>
    match e1.L with
    | none => Except.error Fault.nullState
    | some st =>
      match lua_setglobal (lua_push st value.toLua) (c_str variableName) with
      | Except.error f => Except.error f
      | Except.ok st1 => Except.ok ((), { e1 with L := some st1 })

/-- `LuaEngine::setField(index, value)`.  There is no `isStateEnable` call here. -/
def setField (e : Engine) (index : String) (value : Int) : Result Unit :=
  match e.L with
  | none => Except.error Fault.nullState
  | some st =>
    match lua_settable3 (lua_push (lua_push st (LuaValue.string (c_str index)))
        (LuaValue.number value)) with
    | Except.error f => Except.error f
    | Except.ok st1 => Except.ok ((), { e with L := some st1 })

/-- The line `printStack` writes for the value at stack index `i`. -/
def printStackLine (w : World) (i : Nat) (v : LuaValue) : String :=
  match v with
  | LuaValue.string s => toString i ++ " ---- " ++ c_str s
  | LuaValue.boolean b => toString i ++ " ---- " ++ (if b then "true" else "false")
  | LuaValue.number x => toString i ++ " ---- " ++ w.coutNumber x
  | other => toString i ++ " ---- " ++ typeName other

/-- The loop `for (i = top; i >= 1; i--)` of `printStack` over the stack, top first. -/
def printStackLoop (w : World) : List LuaValue → List String
  | [] => []
  | v :: below => printStackLine w (below.length + 1) v :: printStackLoop w below

/-- First line written by `printStack`. -/
def printStackTitle : String := "\x2d\x2d LuaEngine::printStack \x2d\x2d"

/-- Last line written by `printStack`. -/
def printStackRule : String := String.mk (List.replicate 25 (Char.ofNat 45))

/-- `LuaEngine::printStack()`. -/
def printStack (w : World) (e : Engine) : Result Unit :=
  match isStateEnable e "printStack" with
  | (false, e1) => Except.ok ((), e1)
  | (true, e1) =>
    match e1.L with
    | none => Except.error Fault.nullState
    | some st =>
      let header := [printStackTitle, "Stack size: " ++ toString (lua_gettop st)]
      let lines := header ++ printStackLoop w st.stack ++ [printStackRule]
      Except.ok ((), { e1 with cout := e1.cout ++ lines })

/-- `LuaEngine::printGlobalTable(tableName)`.  There is no `isStateEnable` call here. -/
def printGlobalTable (w : World) (e : Engine) (tableName : String) : Result Unit :=
  match e.L with
  | none => Except.error Fault.nullState
  | some st =>
    match lua_pcall w (luaL_loadstring w st (c_str printTableScript)).2 0 (some 0) with
    | Except.error f => Except.error f
    | Except.ok (_, st2) =>
      let st3 := lua_getglobal st2 "print_table"
      let st4 := lua_getglobal st3 (c_str tableName)
      let st5 := lua_push st4 (LuaValue.number 1)
      match lua_pcall w st5 2 (some 0) with
      | Except.error f => Except.error f
      | Except.ok (_, st6) => Except.ok ((), { e with L := some st6 })

/-- `LuaEngine::getTableKeys(variableName)`. -/
def getTableKeys (w : World) (e : Engine) (variableName : String) : Result (List String) :=
  match isStateEnable e "getTableKeys" with
  | (false, e1) => Except.ok ([], e1)
  | (true, e1) =>
    match e1.L with
    | none => Except.error Fault.nullState
    | some st =>
      match lua_pcall w (luaL_loadstring w st (c_str luaGetKeysScript)).2 0 (some 0) with
      | Except.error f => Except.error f
      | Except.ok (_, st2) =>
        let st3 := lua_getglobal st2 "getKeys"
        let st4 := lua_push st3 (LuaValue.string (c_str variableName))
        match lua_pcall w st4 1 (some 1) with
        | Except.error f => Except.error f
        | Except.ok (_, st5) =>
          match lua_isstring st5 (-1) with
          | Except.error f => Except.error f
          | Except.ok true =>
            match lua_tostring_top w st5 with
            | Except.error f => Except.error f
            | Except.ok (keysString, st6) =>
              Except.ok (stringExplode (c_str keysString) ',', { e1 with L := some st6 })
          | Except.ok false => Except.ok ([], { e1 with L := some st5 })

/-- `LuaEngine::clearStack()`. -/
def clearStack (e : Engine) : Result Unit :=
  match isStateEnable e "clearStack" with
  | (false, e1) => Except.ok ((), e1)
  | (true, e1) =>
    match e1.L with
    | none => Except.error Fault.nullState
    | some st =>
      match lua_pop st (lua_gettop st) with
      | Except.error f => Except.error f
      | Except.ok st1 => Except.ok ((), { e1 with L := some st1 })

/-- The diagnostic of `loadToStack` for an undefined segment. -/
def notDefinedMessage (segment variableName : String) : String :=
  "[LuaEngine::loadToStack] Variable " ++ segment ++ " is not defined (" ++ variableName ++ ")"

/-- The loop `for (unsigned int i = 0; i < variables.size(); i++)` of `loadToStack` over the
segments still to visit; it carries the interpreter state, `currentLevel` and the output. -/
def loadToStackLoop (variableName : String) :
    List String → LuaState → Nat → List String → Except Fault (LuaState × Nat × List String)
  | [], st, currentLevel, cout => Except.ok (st, currentLevel, cout)
  | segment :: rest, st, currentLevel, cout =>
    match (if currentLevel = 0 then Except.ok (lua_getglobal st (c_str segment))
           else lua_getfield st (-1) (c_str segment)) with
    | Except.error f => Except.error f
    | Except.ok st1 =>
      match lua_isnil st1 (lua_gettop st1) with
      | Except.error f => Except.error f
      | Except.ok true =>
        Except.ok (st1, currentLevel, cout ++ [notDefinedMessage segment variableName])
      | Except.ok false => loadToStackLoop variableName rest st1 (currentLevel + 1) cout

/-- `LuaEngine::loadToStack(variableName)`. -/
def loadToStack (e : Engine) (variableName : String) : Result Bool :=
  match isStateEnable e "loadToStack" with
  | (false, e1) => Except.ok (false, e1)
  | (true, e1) =>
    match e1.L with
    | none => Except.error Fault.nullState
    | some st =>
      match loadToStackLoop variableName (stringExplode variableName '.') st 0 e1.cout with
      | Except.error f => Except.error f
      | Except.ok (st1, currentLevel, cout) =>
        match lua_isnil st1 (lua_gettop st1) with
        | Except.error f => Except.error f
        | Except.ok true =>
          Except.ok (false, { e1 with L := some st1, currentLevel := currentLevel, cout := cout })
        | Except.ok false =>
          Except.ok (true, { e1 with L := some st1, currentLevel := currentLevel, cout := cout })

/-! ## Notions the specification uses -/

/-- A few of the globals of the base library: the table of globals under its own name and
three of the library functions. -/
def baseLib : LuaTable :=
  [(LuaValue.string "_G", LuaValue.table 0),
   (LuaValue.string "print", LuaValue.func (LuaFunction.builtin "print")),
   (LuaValue.string "pairs", LuaValue.func (LuaFunction.builtin "pairs")),
   (LuaValue.string "error", LuaValue.func (LuaFunction.builtin "error"))]

/-- A world in which `luaL_openlibs` installs `baseLib`; there are two files, `boom.lua`,
whose one statement calls `error` with a fresh empty table as error value, and `ok.lua`,
which runs to its end; every source compiles, and integers print in decimal. -/
def sampleWorld : World :=
  { openlibs := fun st => LuaState.mk (st.tables.store 0 baseLib) st.stack,
    readFile := fun name =>
      if name = "boom.lua" then some "error(\x7b\x7d)"
      else if name = "ok.lua" then some "x = 1"
      else none,
    syntaxError := fun _ => none,
    call := fun f _ h =>
      if f = LuaFunction.chunk "error(\x7b\x7d)" then
        CallResult.raised (LuaValue.table 7) (h.store 7 [])
      else CallResult.returned [] h,
    numberToString := fun x => toString x.num,
    coutNumber := fun x => toString x.num }

/-- The tables of `sampleState`: the globals of the base library, the table `t` with
`t.x = 1`, `t.y = 2`, `t.z = 3`, the table `empty` without entries, and the table `cfg` with
`cfg.server.port = 8080`. -/
def sampleHeap : Heap := fun r =>
  match r with
  | 0 => baseLib ++ [(LuaValue.string "t", LuaValue.table 1),
      (LuaValue.string "empty", LuaValue.table 2), (LuaValue.string "cfg", LuaValue.table 3)]
  | 1 => [(LuaValue.string "x", LuaValue.number 1), (LuaValue.string "y", LuaValue.number 2),
      (LuaValue.string "z", LuaValue.number 3)]
  | 3 => [(LuaValue.string "server", LuaValue.table 4)]
  | 4 => [(LuaValue.string "port", LuaValue.number 8080)]
  | _ => []

/-- A state with the base library and a few tables, its stack empty. -/
def sampleState : LuaState := LuaState.mk sampleHeap []

/-- A bridge object around a live interpreter state. -/
def engineOf (st : LuaState) (openLibs : Bool) : Engine :=
  { L := some st, openLibs := openLibs, mError := "", currentLevel := 0, cout := [] }

/-- A bridge object whose handle is `nullptr`. -/
def nullEngine (openLibs : Bool) (mError : String) (currentLevel : Nat) (cout : List String) :
    Engine :=
  { L := none, openLibs := openLibs, mError := mError, currentLevel := currentLevel, cout := cout }

/-! ## Theorems -/

/-! ### stringExplode -/

theorem tokens_cons_eq (d c : Char) (cs : List Char) :
    tokens d (c :: cs) = (c :: cs).takeWhile (fun x => x != d)
      :: tokens d (((c :: cs).dropWhile (fun x => x != d)).drop 1) := by
  induction cs generalizing c with
  | nil =>
    by_cases h : c = d
    · simp [tokens, h, List.takeWhile, List.dropWhile]
    · have hb : (c != d) = true := by simpa using h
      simp [tokens, h, hb, List.takeWhile, List.dropWhile]
  | cons b bs ih =>
    by_cases h : c = d
    · subst h
      simp [tokens, List.takeWhile, List.dropWhile]
    · have hb := ih b
      rw [tokens, if_neg h, hb]
      simp [List.takeWhile_cons, List.dropWhile_cons, h]

theorem getline_rest_length (d : Char) (iss tok rest : List Char)
    (h : getline d iss = some (tok, rest)) : rest.length < iss.length := by
  cases iss with
  | nil => simp [getline] at h
  | cons c cs =>
    simp only [getline, Option.some.injEq, Prod.mk.injEq] at h
    rw [← h.2, List.length_drop]
    have := (List.dropWhile_sublist (fun x => x != d) (l := c :: cs)).length_le
    simp only [List.length_cons] at this ⊢
    omega

theorem explodeLoop_eq (d : Char) : ∀ (fuel : Nat) (iss : List Char) (acc : List String),
    iss.length < fuel → explodeLoop d fuel iss acc = acc ++ (tokens d iss).map String.mk := by
  intro fuel
  induction fuel with
  | zero => intro iss acc h; omega
  | succ n ih =>
    intro iss acc h
    cases iss with
    | nil => simp [explodeLoop, getline, tokens]
    | cons c cs =>
      have hlen := getline_rest_length d (c :: cs) _ _ rfl
      rw [explodeLoop]
      simp only [getline]
      rw [ih _ _ (by simp only [List.length_cons] at h hlen ⊢; omega), tokens_cons_eq]
      simp

theorem stringExplode_eq (s : String) (d : Char) :
    stringExplode s d = (tokens d s.data).map String.mk := by
  unfold stringExplode
  rw [explodeLoop_eq _ _ _ _ (by cases s; exact Nat.lt_succ_self _)]
  simp

theorem tokens_no_delim (d : Char) : ∀ (cs : List Char), ∀ t ∈ tokens d cs, d ∉ t := by
  intro cs
  induction cs with
  | nil => simp [tokens]
  | cons c cs ih =>
    intro t ht
    by_cases h : c = d
    · simp only [tokens, h, if_true, List.mem_cons] at ht
      rcases ht with rfl | ht
      · simp
      · exact ih t ht
    · rw [tokens, if_neg h] at ht
      cases hts : tokens d cs with
      | nil =>
        rw [hts] at ht
        simp only [List.mem_singleton] at ht
        subst ht
        simpa using fun h2 => h h2.symm
      | cons t0 ts =>
        rw [hts] at ht ih
        simp only [List.mem_cons] at ht
        rcases ht with rfl | ht
        · have := ih t0 (by simp)
          simp only [List.mem_cons, not_or]
          exact ⟨fun h2 => h h2.symm, this⟩
        · exact ih t (by simp [ht])

theorem tokens_eq_nil (d : Char) (cs : List Char) : tokens d cs = [] ↔ cs = [] := by
  cases cs with
  | nil => simp [tokens]
  | cons c cs => simp [tokens_cons_eq]

theorem tokens_append_delim (d : Char) (y : List Char) : ∀ x : List Char,
    tokens d (x ++ d :: y) = tokens d (x ++ [d]) ++ tokens d y := by
  intro x
  induction x with
  | nil => simp [tokens]
  | cons c cs ih =>
    by_cases h : c = d
    · simp [tokens, h, ih]
    · simp only [List.cons_append, tokens, if_neg h]
      show (match tokens d (cs ++ d :: y) with
        | [] => [[c]]
        | t :: ts => (c :: t) :: ts) =
        (match tokens d (cs ++ [d]) with
          | [] => [[c]]
          | t :: ts => (c :: t) :: ts) ++ tokens d y
      rw [ih]
      cases hts : tokens d (cs ++ [d]) with
      | nil => simp [tokens_eq_nil] at hts
      | cons t0 ts => simp


theorem intercalate_go_data (sep : String) : ∀ (l : List String) (acc : String),
    (String.intercalate.go acc sep l).data
      = acc.data ++ (l.map (fun a => sep.data ++ a.data)).flatten := by
  intro l
  induction l with
  | nil => intro acc; simp [String.intercalate.go]
  | cons a as ih => intro acc; simp [String.intercalate.go, ih, String.data_append]

theorem joinChars_cons (d : Char) (t : List Char) (ts : List (List Char)) :
    joinChars d (t :: ts) = t ++ (ts.map (fun a => d :: a)).flatten := by
  induction ts generalizing t with
  | nil => simp [joinChars]
  | cons t2 ts ih => simp [joinChars, ih]

theorem intercalate_data (d : Char) (l : List (List Char)) :
    (String.intercalate (String.singleton d) (l.map String.mk)).data = joinChars d l := by
  cases l with
  | nil => simp [String.intercalate, joinChars]
  | cons t ts =>
    simp [String.intercalate, intercalate_go_data, joinChars_cons, String.singleton,
      List.map_map, Function.comp_def]

theorem joinChars_tokens (d : Char) : ∀ cs : List Char,
    joinChars d (tokens d cs) = if cs.getLast? = some d then cs.dropLast else cs := by
  intro cs
  induction cs with
  | nil => simp [tokens, joinChars]
  | cons c cs ih =>
    cases cs with
    | nil =>
      by_cases h : c = d
      · simp [tokens, h, joinChars]
      · simp [tokens, h, joinChars]
    | cons b bs =>
      have hl : (c :: b :: bs).getLast? = (b :: bs).getLast? := by simp [List.getLast?_cons_cons]
      have hd : (c :: b :: bs).dropLast = c :: (b :: bs).dropLast := by simp [List.dropLast]
      rw [hl, hd]
      by_cases h : c = d
      · rw [tokens, if_pos h]
        have hne : tokens d (b :: bs) ≠ [] := by simp [tokens_eq_nil]
        cases hts : tokens d (b :: bs) with
        | nil => exact absurd hts hne
        | cons t0 ts =>
          rw [hts] at ih
          simp only [joinChars, List.nil_append, ih, h]
          split <;> rfl
      · rw [tokens, if_neg h]
        have hne : tokens d (b :: bs) ≠ [] := by simp [tokens_eq_nil]
        cases hts : tokens d (b :: bs) with
        | nil => exact absurd hts hne
        | cons t0 ts =>
          rw [hts] at ih
          simp only [joinChars_cons] at ih ⊢
          simp only [List.cons_append, ih]
          split <;> rfl

/-- C10: `stringExplode s d` gives the ordered segments of `s` between the occurrences of
`d`: no token contains `d`; two delimiters in a row give an empty token between them;
joining the tokens with `d` gives `s` back when `s` does not end with `d`, and `s` without
its final `d` when it does; the result is empty exactly when `s` is empty. -/
theorem stringExplode_segments (s : String) (d : Char) :
    (∀ t ∈ stringExplode s d, d ∉ t.data) ∧
    (∀ x y : String,
      stringExplode (x ++ String.singleton d ++ String.singleton d ++ y) d
        = stringExplode (x ++ String.singleton d) d ++ "" :: stringExplode y d) ∧
    String.intercalate (String.singleton d) (stringExplode s d)
        = (if s.data.getLast? = some d then String.mk s.data.dropLast else s) ∧
    (stringExplode s d = [] ↔ s = "") := by
  refine ⟨?_, ?_, ?_, ?_⟩
  · intro t ht
    rw [stringExplode_eq] at ht
    obtain ⟨cs, hcs, rfl⟩ := List.mem_map.1 ht
    exact tokens_no_delim d _ cs hcs
  · intro x y
    have hp : (String.singleton d).data = [d] := rfl
    simp only [stringExplode_eq, String.data_append, hp, List.append_assoc,
      List.singleton_append]
    have h1 := tokens_append_delim d (d :: y.data) x.data
    have h2 : tokens d (d :: y.data) = [] :: tokens d y.data := by simp [tokens]
    show List.map String.mk (tokens d (x.data ++ d :: d :: y.data)) = _
    rw [h1, h2, List.map_append, List.map_cons]
  · apply String.ext
    rw [stringExplode_eq, intercalate_data, joinChars_tokens]
    split <;> rfl
  · rw [stringExplode_eq]
    simp only [List.map_eq_nil_iff, tokens_eq_nil]
    constructor
    · intro h; exact String.ext h
    · intro h; rw [h]

/-! ### loadToStack -/

theorem c_str_eq_self (s : String) (h : NUL ∉ s.data) : c_str s = s := by
  unfold c_str
  apply String.ext
  show s.data.takeWhile (fun c => c != NUL) = s.data
  rw [List.takeWhile_eq_self_iff]
  intro c hc
  simp only [bne_iff_ne, ne_eq]
  intro hcn
  exact h (hcn ▸ hc)

theorem lua_isnil_top (h : Heap) (v : LuaValue) (below : List LuaValue) :
    lua_isnil { tables := h, stack := v :: below }
      (lua_gettop { tables := h, stack := v :: below }) = Except.ok (decide (v = LuaValue.nil)) := by
  have hpos : (0 : Int) < ((below.length + 1 : Nat) : Int) := by omega
  have hne : ((below.length + 1 : Nat) : Int) ≠ 0 := by omega
  have hget : (v :: below).reverse.get? (((below.length + 1 : Nat) : Int).toNat - 1) = some v := by
    simp
  simp only [lua_isnil, lua_gettop, index2value, List.length_cons, hne, hpos, if_true, if_false, hget]

theorem rawget_rawset_same (t : LuaTable) (k v : LuaValue) (hv : v ≠ LuaValue.nil) :
    rawget (rawset t k v) k = v := by
  unfold rawset
  rw [if_neg hv]
  by_cases hany : t.any (fun e => e.1 == k) = true
  · rw [if_pos hany]
    have key : ∀ l : LuaTable, l.any (fun e => e.1 == k) = true →
        (l.map (fun e => if e.1 = k then (k, v) else e)).find? (fun e => e.1 == k) = some (k, v) := by
      intro l
      induction l with
      | nil => intro h; simp at h
      | cons a as ih =>
        intro h
        by_cases ha : a.1 = k
        · simp [ha]
        · have has : as.any (fun e => e.1 == k) = true := by
            simpa [ha] using h
          simp [ha, ih has]
    simp only [rawget, key t hany]
  · rw [if_neg hany]
    have hnone : t.find? (fun e => e.1 == k) = none := by
      rw [List.find?_eq_none]
      intro x hx hxk
      exact hany (List.any_eq_true.2 ⟨x, hx, hxk⟩)
    simp [rawget, List.find?_append, hnone]

theorem rawget_rawset_other (t : LuaTable) (k k2 v : LuaValue) (hk : k2 ≠ k) :
    rawget (rawset t k v) k2 = rawget t k2 := by
  unfold rawset
  have hkb : (k == k2) = false := by simpa using fun h => hk h.symm
  split
  · have key : ∀ l : LuaTable, (l.filter (fun e => e.1 != k)).find? (fun e => e.1 == k2)
        = l.find? (fun e => e.1 == k2) := by
      intro l
      induction l with
      | nil => rfl
      | cons a as ih =>
        by_cases ha : a.1 = k
        · have h2 : (a.1 == k2) = false := by rw [ha]; exact hkb
          simp [List.filter_cons, ha, List.find?_cons, hkb, ih]
        · simp [List.filter_cons, ha, List.find?_cons, ih]
    simp only [rawget, key t]
  · split
    · have key : ∀ l : LuaTable,
          (l.map (fun e => if e.1 = k then (k, v) else e)).find? (fun e => e.1 == k2)
            = l.find? (fun e => e.1 == k2) := by
        intro l
        induction l with
        | nil => rfl
        | cons a as ih =>
          by_cases ha : a.1 = k
          · have h2 : (a.1 == k2) = false := by rw [ha]; exact hkb
            simp [ha, List.find?_cons, h2, hkb, ih]
          · simp [ha, List.find?_cons, ih]
      simp only [rawget, key t]
    · simp only [rawget, List.find?_append]
      cases hf : t.find? (fun e => e.1 == k2) with
      | some e => simp
      | none => simp [List.find?_cons, hkb]

theorem getGlobal_setGlobal_same (h : Heap) (name : String) (v : LuaValue)
    (hv : v ≠ LuaValue.nil) : getGlobal (setGlobal h name v) name = v := by
  simp [getGlobal, setGlobal, Heap.store, rawget_rawset_same _ _ _ hv]

theorem getGlobal_setGlobal_other (h : Heap) (name name2 : String) (v : LuaValue)
    (hn : name2 ≠ name) : getGlobal (setGlobal h name v) name2 = getGlobal h name2 := by
  simp only [getGlobal, setGlobal, Heap.store, if_true]
  exact rawget_rawset_other _ _ _ _ (by simpa using hn)

theorem c_str_no_nul (s : String) : NUL ∉ (c_str s).data := by
  intro h
  have := List.mem_takeWhile_imp h
  simp at this

theorem registerVariable_openLibs (e e1 : Engine) (name : String) (value : HostValue)
    (h : registerVariable e name value = Except.ok ((), e1)) : e1.openLibs = e.openLibs := by
  unfold registerVariable isStateEnable at h
  cases hL : e.L with
  | none =>
    simp only [hL, Except.ok.injEq, Prod.mk.injEq, true_and] at h
    rw [← h]
  | some st =>
    simp only [hL, lua_setglobal, lua_push, Except.ok.injEq, Prod.mk.injEq, true_and] at h
    rw [← h]

theorem getGlobal_newstate (name : String) : getGlobal luaL_newstate.tables name = LuaValue.nil := by
  simp [getGlobal, luaL_newstate, rawget]

theorem loadToStack_undefined_global (e : Engine) (st : LuaState) (name s0 : String)
    (rest : List String) (hL : e.L = some st) (hsegs : stringExplode name '.' = s0 :: rest)
    (hnil : getGlobal st.tables (c_str s0) = LuaValue.nil) :
    ∃ e3, loadToStack e name = Except.ok (false, e3) := by
  refine ⟨Engine.mk (some (LuaState.mk st.tables (LuaValue.nil :: st.stack))) e.openLibs e.mError
    0 (e.cout ++ [notDefinedMessage s0 name]), ?_⟩
  simp only [loadToStack, isStateEnable, hL, hsegs, loadToStackLoop, lua_getglobal, lua_push,
    if_true, hnil, lua_isnil_top, decide_True]

/-- C7 (amended): resetting clears the registered globals.  For every name with at least one
segment that was registered with `registerVariable` before `clearState`, `loadToStack(name)`
returns false after `clearState` when the library-loading flag is false, and also when it
is true as long as the first segment of the name contains no character 0 and is not a
global that the libraries install. -/
theorem clearState_forgets_registered (w : World) (e e1 : Engine) (name s0 : String)
    (rest : List String) (value : HostValue)
    (hreg : registerVariable e name value = Except.ok ((), e1))
    (hsegs : stringExplode name '.' = s0 :: rest)
    (hlib : e.openLibs = false ∨
      (NUL ∉ s0.data ∧ getGlobal (w.openlibs luaL_newstate).tables s0 = LuaValue.nil)) :
    ∃ e3, loadToStack (clearState w e1) name = Except.ok (false, e3) := by
  have hopen := registerVariable_openLibs e e1 name value hreg
  by_cases ho : e.openLibs = true
  · rcases hlib with hf | ⟨hnul, hn⟩
    · rw [hf] at ho; exact absurd ho (by simp)
    · exact loadToStack_undefined_global (clearState w e1) (w.openlibs luaL_newstate) name s0 rest
        (by simp [clearState, hopen, ho]) hsegs (by rw [c_str_eq_self s0 hnul]; exact hn)
  · exact loadToStack_undefined_global (clearState w e1) luaL_newstate name s0 rest
      (by simp [clearState, hopen, ho]) hsegs (getGlobal_newstate _)

/-- The name `foo`, registered with 42, with the libraries loaded. -/
theorem clearState_forgets_registered_witness :
    ∃ e3, loadToStack (clearState sampleWorld
        (Engine.mk (some (LuaState.mk (setGlobal sampleState.tables "foo" (LuaValue.number (42 : Int)))
          sampleState.stack)) true "" 0 [])) "foo" = Except.ok (false, e3) :=
  clearState_forgets_registered sampleWorld (engineOf sampleState true) _ "foo" "foo" []
    (HostValue.int 42) rfl (by decide) (Or.inr ⟨by decide, by decide⟩)

/-- C7 as stated fails: with the libraries loaded, the name `print` registered with 42 is a
global again after `clearState`, because `luaL_openlibs` installs it, and `loadToStack`
returns true. -/
theorem clearState_reinstalls_library_global :
    (registerVariable (Engine.new sampleWorld true) "print" (HostValue.int 42)).engine.map
      (fun e1 => (loadToStack (clearState sampleWorld e1) "print").value) = some (some true) := by
  decide

/-! ### The null handle -/

/-- C8 fails on `setField` and `printGlobalTable`: with the handle null, the operations that
call `isStateEnable` write their diagnostic and return the neutral value (false, the empty
sequence, nothing) with the handle still null, but `setField` and `printGlobalTable` have no
such check and enter the interpreter API with the null handle. -/
theorem null_handle_operations (w : World) (openLibs : Bool) (mError : String)
    (currentLevel : Nat) (cout : List String) (text : String) (value : HostValue) (n : Int) :
    (loadFile w (nullEngine openLibs mError currentLevel cout) text).value = some false ∧
    (loadToStack (nullEngine openLibs mError currentLevel cout) text).value = some false ∧
    (getTableKeys w (nullEngine openLibs mError currentLevel cout) text).value = some [] ∧
    (executeCode w (nullEngine openLibs mError currentLevel cout) text).engine
      = some (nullEngine openLibs mError currentLevel
          (cout ++ ["[LuaEngine::executeCode] Lua State not initialized"])) ∧
    (registerVariable (nullEngine openLibs mError currentLevel cout) text value).engine
      = some (nullEngine openLibs mError currentLevel
          (cout ++ ["[LuaEngine::registerVariable] Lua State not initialized"])) ∧
    (printStack w (nullEngine openLibs mError currentLevel cout)).engine
      = some (nullEngine openLibs mError currentLevel
          (cout ++ ["[LuaEngine::printStack] Lua State not initialized"])) ∧
    (clearStack (nullEngine openLibs mError currentLevel cout)).engine
      = some (nullEngine openLibs mError currentLevel
          (cout ++ ["[LuaEngine::clearStack] Lua State not initialized"])) ∧
    setField (nullEngine openLibs mError currentLevel cout) text n
      = Except.error Fault.nullState ∧
    printGlobalTable w (nullEngine openLibs mError currentLevel cout) text
      = Except.error Fault.nullState :=
  ⟨rfl, rfl, rfl, rfl, rfl, rfl, rfl, rfl, rfl⟩

/-! ### loadFile -/

theorem c_str_cannot_open (fn : String) : c_str ("cannot open " ++ fn) ≠ "" := by
  intro h
  have h2 := congrArg String.data h
  simp [c_str, String.data_append, List.takeWhile, NUL] at h2

theorem c_str_syntax_message (fn rest : String) (hfn : NUL ∉ fn.data) :
    c_str (fn ++ ":" ++ rest) ≠ "" := by
  intro h
  have h2 := congrArg String.data h
  have hall : ∀ a ∈ fn.data, (fun c => c != NUL) a = true := by
    intro a ha
    simp only [bne_iff_ne, ne_eq]
    intro hn
    exact hfn (hn ▸ ha)
  simp only [c_str, String.data_append, List.append_assoc] at h2
  rw [List.takeWhile_append_of_pos hall] at h2
  simp [List.takeWhile, NUL] at h2

theorem lua_pcall_chunk (w : World) (st : LuaState) (src : String) :
    lua_pcall w (lua_push st (LuaValue.func (LuaFunction.chunk src))) 0 none
      = match callFunction w (LuaFunction.chunk src) [] st.tables with
        | CallResult.returned rs h =>
          Except.ok (LUA_OK, LuaState.mk h (rs.reverse ++ st.stack))
        | CallResult.raised err h => Except.ok (LUA_ERRRUN, LuaState.mk h (err :: st.stack)) := by
  simp [lua_pcall, lua_push, callValue, adjustResults]

/-- C9 (amended): for an initialised state, (1) when the file cannot be opened or does not
compile, `loadFile` returns false and `getError` afterwards is not empty and is the error
string left on top of the stack, read as a C string; (2) when the execution fails,
`loadFile` returns false, `getError` is the error value read as a C string if that value is
a string, and is what it was before the call if the value is neither a string nor a number;
(3) when load and execution succeed, `loadFile` returns true. -/
theorem loadFile_outcome (w : World) (e : Engine) (st : LuaState) (fileName : String)
    (hL : e.L = some st) :
    ((luaL_loadfile w st (c_str fileName)).1 ≠ 0 →
      ∃ e2 msg, loadFile w e fileName = Except.ok (false, e2) ∧
        e2.L.map LuaState.stack = some (LuaValue.string msg :: st.stack) ∧
        getError e2 = c_str msg ∧ getError e2 ≠ "") ∧
    (∀ src err h, w.readFile (c_str fileName) = some src → w.syntaxError src = none →
      callFunction w (LuaFunction.chunk src) [] st.tables = CallResult.raised err h →
      ∃ e2, loadFile w e fileName = Except.ok (false, e2) ∧
        (∀ m, err = LuaValue.string m → getError e2 = c_str m) ∧
        ((∀ m, err ≠ LuaValue.string m) → (∀ x, err ≠ LuaValue.number x) →
          getError e2 = getError e)) ∧
    (∀ src rs h, w.readFile (c_str fileName) = some src → w.syntaxError src = none →
      callFunction w (LuaFunction.chunk src) [] st.tables = CallResult.returned rs h →
      ∃ e2, loadFile w e fileName = Except.ok (true, e2)) := by
  refine ⟨?_, ?_, ?_⟩
  · intro hfail
    cases hr : w.readFile (c_str fileName) with
    | none =>
      refine ⟨Engine.mk (some (LuaState.mk st.tables
        (LuaValue.string ("cannot open " ++ c_str fileName) :: st.stack))) e.openLibs
        (c_str ("cannot open " ++ c_str fileName)) e.currentLevel e.cout,
        "cannot open " ++ c_str fileName, ?_, rfl, rfl, c_str_cannot_open _⟩
      simp [loadFile, isStateEnable, hL, luaL_dofile, luaL_loadfile, hr, lua_push, LUA_ERRFILE,
        lua_isstring, index2value, lua_tostring_top]
    | some src =>
      cases hs : w.syntaxError src with
      | none => simp [luaL_loadfile, hr, hs, LUA_OK] at hfail
      | some lm =>
        obtain ⟨line, m⟩ := lm
        refine ⟨Engine.mk (some (LuaState.mk st.tables
          (LuaValue.string (c_str fileName ++ ":" ++ toString line ++ ": " ++ m) :: st.stack)))
          e.openLibs (c_str (c_str fileName ++ ":" ++ toString line ++ ": " ++ m))
          e.currentLevel e.cout,
          c_str fileName ++ ":" ++ toString line ++ ": " ++ m, ?_, rfl, rfl, ?_⟩
        · simp [loadFile, isStateEnable, hL, luaL_dofile, luaL_loadfile, hr, hs, lua_push,
            LUA_ERRSYNTAX, lua_isstring, index2value, lua_tostring_top]
        · have := c_str_syntax_message (c_str fileName) (toString line ++ ": " ++ m)
            (c_str_no_nul fileName)
          simpa [getError, String.append_assoc] using this
  · intro src err h hr hs hcall
    have hdo : luaL_dofile w st (c_str fileName)
        = Except.ok (1, LuaState.mk h (err :: st.stack)) := by
      simp only [luaL_dofile, luaL_loadfile, hr, hs, LUA_OK, ne_eq, not_true_eq_false,
        if_false, lua_pcall_chunk, hcall, LUA_ERRRUN]
      rfl
    cases err with
    | string m =>
      refine ⟨Engine.mk (some (LuaState.mk h (LuaValue.string m :: st.stack))) e.openLibs
        (c_str m) e.currentLevel e.cout, ?_, ?_, ?_⟩
      · simp [loadFile, isStateEnable, hL, hdo, lua_isstring, index2value, lua_tostring_top]
      · intro m2 hm; cases hm; rfl
      · intro hno _; exact absurd rfl (hno m)
    | number x =>
      refine ⟨Engine.mk (some (LuaState.mk h (LuaValue.string (w.numberToString x) :: st.stack)))
        e.openLibs (c_str (w.numberToString x)) e.currentLevel e.cout, ?_, ?_, ?_⟩
      · simp [loadFile, isStateEnable, hL, hdo, lua_isstring, index2value, lua_tostring_top]
      · intro m2 hm; cases hm
      · intro _ hno; exact absurd rfl (hno x)
    | nil =>
      refine ⟨Engine.mk (some (LuaState.mk h (LuaValue.nil :: st.stack))) e.openLibs
        e.mError e.currentLevel e.cout, ?_, ?_, ?_⟩
      · simp [loadFile, isStateEnable, hL, hdo, lua_isstring, index2value]
      · intro m2 hm; cases hm
      · intro _ _; rfl
    | boolean b =>
      refine ⟨Engine.mk (some (LuaState.mk h (LuaValue.boolean b :: st.stack))) e.openLibs
        e.mError e.currentLevel e.cout, ?_, ?_, ?_⟩
      · simp [loadFile, isStateEnable, hL, hdo, lua_isstring, index2value]
      · intro m2 hm; cases hm
      · intro _ _; rfl
    | table r =>
      refine ⟨Engine.mk (some (LuaState.mk h (LuaValue.table r :: st.stack))) e.openLibs
        e.mError e.currentLevel e.cout, ?_, ?_, ?_⟩
      · simp [loadFile, isStateEnable, hL, hdo, lua_isstring, index2value]
      · intro m2 hm; cases hm
      · intro _ _; rfl
    | func f =>
      refine ⟨Engine.mk (some (LuaState.mk h (LuaValue.func f :: st.stack))) e.openLibs
        e.mError e.currentLevel e.cout, ?_, ?_, ?_⟩
      · simp [loadFile, isStateEnable, hL, hdo, lua_isstring, index2value]
      · intro m2 hm; cases hm
      · intro _ _; rfl
  · intro src rs h hr hs hcall
    have hdo : luaL_dofile w st (c_str fileName)
        = Except.ok (0, LuaState.mk h (rs.reverse ++ st.stack)) := by
      simp only [luaL_dofile, luaL_loadfile, hr, hs, LUA_OK, ne_eq, not_true_eq_false,
        if_false, lua_pcall_chunk, hcall]
    refine ⟨Engine.mk (some (LuaState.mk h (rs.reverse ++ st.stack))) e.openLibs
        e.mError e.currentLevel e.cout, ?_⟩
    simp [loadFile, isStateEnable, hL, hdo]

/-- The three cases of `loadFile_outcome` at a file that does not exist, at `boom.lua` and
at `ok.lua`. -/
theorem loadFile_outcome_witness :
    (∃ e2 msg, loadFile sampleWorld (engineOf sampleState true) "nofile.lua"
        = Except.ok (false, e2) ∧
      e2.L.map LuaState.stack = some (LuaValue.string msg :: sampleState.stack) ∧
      getError e2 = c_str msg ∧ getError e2 ≠ "") ∧
    (∃ e2, loadFile sampleWorld (engineOf sampleState true) "boom.lua" = Except.ok (false, e2) ∧
      (∀ m, LuaValue.table 7 = LuaValue.string m → getError e2 = c_str m) ∧
      ((∀ m, LuaValue.table 7 ≠ LuaValue.string m) → (∀ x, LuaValue.table 7 ≠ LuaValue.number x) →
        getError e2 = getError (engineOf sampleState true))) ∧
    (∃ e2, loadFile sampleWorld (engineOf sampleState true) "ok.lua" = Except.ok (true, e2)) :=
  ⟨(loadFile_outcome sampleWorld (engineOf sampleState true) sampleState "nofile.lua" rfl).1
      (by decide),
    (loadFile_outcome sampleWorld (engineOf sampleState true) sampleState "boom.lua" rfl).2.1
      "error(\x7b\x7d)" (LuaValue.table 7) (sampleState.tables.store 7 []) rfl rfl rfl,
    (loadFile_outcome sampleWorld (engineOf sampleState true) sampleState "ok.lua" rfl).2.2
      "x = 1" [] sampleState.tables rfl rfl rfl⟩

/-- C9 as stated fails: the file `boom.lua` compiles and its execution fails with a table as
error value; `loadFile` returns false and `getError` afterwards is still empty. -/
theorem loadFile_table_error_no_message :
    (loadFile sampleWorld (engineOf sampleState true) "boom.lua").value = some false ∧
    (loadFile sampleWorld (engineOf sampleState true) "boom.lua").engine.map getError
      = some "" := by
  decide

/-! ### getTableKeys -/

theorem c_str_luaGetKeysScript : c_str luaGetKeysScript = luaGetKeysScript := by decide

set_option maxRecDepth 4000 in
/-- C5 fails on the code: with the base library in place, for the undefined global
`missing` and for the global `print`, which is a function, the call of `getKeys` fails and
leaves its error message on the stack; the message is a string, so `getTableKeys` splits it
at its commas and returns the pieces instead of the empty sequence. -/
theorem getTableKeys_not_a_table_returns_message :
    getGlobal sampleState.tables "missing" = LuaValue.nil ∧
    (getTableKeys sampleWorld (engineOf sampleState true) "missing").value
      = some ["[string \"function getKeys(name) s = \"\" for k",
          " v in pairs(_...\"]:1: bad argument #1 to \x27pairs\x27 (table expected",
          " got nil)"] ∧
    getGlobal sampleState.tables "print" = LuaValue.func (LuaFunction.builtin "print") ∧
    (getTableKeys sampleWorld (engineOf sampleState true) "print").value
      = some ["[string \"function getKeys(name) s = \"\" for k",
          " v in pairs(_...\"]:1: bad argument #1 to \x27pairs\x27 (table expected",
          " got function)"] :=
  ⟨by decide, by decide, by decide, by decide⟩

/-- Behind C5, for every state: with the base library in place and a name other than `s`
and `getKeys` whose global is not a table, `getTableKeys` returns the pieces of the error
message of `pairs`, split at the commas, and that sequence is not empty. -/
theorem getTableKeys_not_a_table (w : World) (e : Engine) (st : LuaState) (name : String)
    (hL : e.L = some st)
    (hpairs : getGlobal st.tables "pairs" = LuaValue.func (LuaFunction.builtin "pairs"))
    (hG : getGlobal st.tables "_G" = LuaValue.table 0)
    (hs : c_str name ≠ "s") (hg : c_str name ≠ "getKeys")
    (hname : ∀ r, getGlobal st.tables (c_str name) ≠ LuaValue.table r) :
    (getTableKeys w e name).value = some (stringExplode (c_str (getKeysWhere
        ++ "bad argument #1 to \x27pairs\x27 (table expected, got "
        ++ typeName (getGlobal st.tables (c_str name)) ++ ")")) ',') ∧
    (getTableKeys w e name).value ≠ some [] := by
  have hload : (luaL_loadstring w st (c_str luaGetKeysScript)).2
      = lua_push st (LuaValue.func (LuaFunction.chunk luaGetKeysScript)) := by
    simp [luaL_loadstring, c_str_luaGetKeysScript]
  have hdef : callFunction w (LuaFunction.chunk luaGetKeysScript) [] st.tables
      = CallResult.returned []
          (setGlobal st.tables "getKeys" (LuaValue.func LuaFunction.getKeys)) := by
    simp [callFunction]
  have hp1 : lua_pcall w (lua_push st (LuaValue.func (LuaFunction.chunk luaGetKeysScript))) 0 (some 0)
      = Except.ok (LUA_OK, LuaState.mk
          (setGlobal st.tables "getKeys" (LuaValue.func LuaFunction.getKeys)) st.stack) := by
    simp [lua_pcall, lua_push, callValue, hdef, adjustResults]
  have hh1 : ∀ n : String, n ≠ "s" → n ≠ "getKeys" →
      getGlobal (setGlobal (setGlobal st.tables "getKeys" (LuaValue.func LuaFunction.getKeys))
        "s" (LuaValue.string "")) n = getGlobal st.tables n := by
    intro n h1 h2
    rw [getGlobal_setGlobal_other _ _ _ _ h1, getGlobal_setGlobal_other _ _ _ _ h2]
  have hname2 : rawget ((setGlobal (setGlobal st.tables "getKeys"
      (LuaValue.func LuaFunction.getKeys)) "s" (LuaValue.string "")) 0)
      (LuaValue.string (c_str name)) = getGlobal st.tables (c_str name) := hh1 (c_str name) hs hg
  have hbody : getKeysBody w (LuaValue.string (c_str name))
      (setGlobal st.tables "getKeys" (LuaValue.func LuaFunction.getKeys))
      = CallResult.raised (LuaValue.string (getKeysWhere
          ++ "bad argument #1 to \x27pairs\x27 (table expected, got "
          ++ typeName (getGlobal st.tables (c_str name)) ++ ")"))
        (setGlobal (setGlobal st.tables "getKeys" (LuaValue.func LuaFunction.getKeys))
          "s" (LuaValue.string "")) := by
    simp only [getKeysBody, hh1 "pairs" (by decide) (by decide), hh1 "_G" (by decide) (by decide),
      hpairs, hG, hname2]
  have hp2 : lua_pcall w (lua_push (lua_getglobal (LuaState.mk
        (setGlobal st.tables "getKeys" (LuaValue.func LuaFunction.getKeys)) st.stack) "getKeys")
        (LuaValue.string (c_str name))) 1 (some 1)
      = Except.ok (LUA_ERRRUN, LuaState.mk
          (setGlobal (setGlobal st.tables "getKeys" (LuaValue.func LuaFunction.getKeys))
            "s" (LuaValue.string ""))
          (LuaValue.string (getKeysWhere
            ++ "bad argument #1 to \x27pairs\x27 (table expected, got "
            ++ typeName (getGlobal st.tables (c_str name)) ++ ")") :: st.stack)) := by
    simp [lua_pcall, lua_push, lua_getglobal, getGlobal_setGlobal_same, callValue, callFunction,
      hbody]
  have hval : (getTableKeys w e name).value = some (stringExplode (c_str (getKeysWhere
        ++ "bad argument #1 to \x27pairs\x27 (table expected, got "
        ++ typeName (getGlobal st.tables (c_str name)) ++ ")")) ',') := by
    simp [getTableKeys, isStateEnable, hL, hload, hp1, hp2, lua_isstring, index2value,
      lua_tostring_top, Result.value]
  refine ⟨hval, ?_⟩
  rw [hval]
  intro hnone
  have hnil := Option.some.inj hnone
  rw [stringExplode_eq, List.map_eq_nil_iff, tokens_eq_nil] at hnil
  have hstart : ∃ tl, getKeysWhere.data = Char.ofNat 91 :: tl := ⟨_, rfl⟩
  obtain ⟨tl, htl⟩ := hstart
  simp only [c_str, String.data_append, htl, List.cons_append] at hnil
  rw [List.takeWhile_cons_of_pos (by decide)] at hnil
  exact List.cons_ne_nil _ _ hnil

/-- The undefined global `missing` in `sampleState`. -/
theorem getTableKeys_not_a_table_sample :
    (getTableKeys sampleWorld (engineOf sampleState true) "missing").value ≠ some [] :=
  (getTableKeys_not_a_table sampleWorld (engineOf sampleState true) sampleState "missing" rfl
    (by decide) (by decide) (by decide) (by decide)
    (fun r => by
      rw [show getGlobal sampleState.tables (c_str "missing") = LuaValue.nil by decide]
      simp)).2

end LuaEngine
